import Mathlib

/-!
Shallow embedding of the dynamic array of `src/darray.c` / `src/darray.h` /
`src/common.h` (a generic, type-erased growable array with a pluggable
allocator), together with proofs settling the specification claims.

Modelling conventions:
* `any_t` (a `void *` slot value) is modelled by `AnyT := Option Nat`,
  with `none` standing for the C `NULL` pointer value.
* A read of uninitialized or unallocated memory is undefined behaviour in C;
  the model determinizes every such read to the fixed value `junk`.
* The buffer pointer is `Option (List AnyT)`: `none` is a `NULL` pointer,
  `some l` is a non-null block whose slots hold `l` (`l.length` slots).
* The four allocator function pointers are modelled by their presence
  (`Bool`); whether a particular `malloc`/`realloc` call succeeds is external
  nondeterminism, passed to each operation as an explicit oracle `Bool`
  (one per allocation call the C code can make).
* The `struct darray *arr` null-handle check appears in the element-access
  functions as an `Option DArray` argument (the claims about null handles
  concern those); the state-transforming operations are modelled on a
  non-null `DArray` state directly.
-/

namespace CDynArray

/-- Type `any_t` = `void *` slot value; `none` models the `NULL` pointer. -/
abbrev AnyT := Option Nat

/-- The fixed value to which the model determinizes every read of
uninitialized or unallocated memory (such reads are UB in the C source). -/
def junk : AnyT := some 0

/-- Status `enum stat` of `src/common.h`, in declaration order. -/
inductive Stat where
  | OK
  | ERR_ALLOC
  | ERR_NULL_POINTER
  | ERR_INVALID_ACCESS_OF_INDEX
  | ERR_INDEX_LARGER_THAN_CAPACITY
  | ERR_REACHED_MAX_CAPACITY
  | ERR_NULL_FUNCTION_POINTER
  | ITER_END
deriving DecidableEq

open Stat

/-- Record `struct allocator` of `src/common.h`: each field records whether the
corresponding function pointer is non-null. -/
structure Allocator where
  mem_alloc_f : Bool
  mem_calloc_f : Bool
  mem_realloc_f : Bool
  mem_free_f : Bool
deriving DecidableEq

/-- The default allocator family installed by `darray_init`
(`malloc`/`calloc`/`realloc`/`free`, all present). -/
def defaultAllocator : Allocator := ⟨true, true, true, true⟩

/-- State `struct darray` of `src/darray.c`. `cmp_f` records presence of the
comparison function pointer (it is stored, never invoked). -/
structure DArray where
  len : Nat
  capacity : Nat
  buffer : Option (List AnyT)
  cmp_f : Bool
  allocator : Allocator
deriving DecidableEq

/-- Constant `DEFAULT_CAPACITY` (8) of src/darray.c. -/
def DEFAULT_CAPACITY : Nat := 8

/-- Constant `DEFAULT_EXPANSION_FACTOR` (2) of src/darray.c. -/
def DEFAULT_EXPANSION_FACTOR : Nat := 2

/-- Reading slot `i` of a buffer pointer: a `NULL` buffer or an index past
the block yields the determinized UB value `junk`; otherwise the slot. -/
def bufRead (buf : Option (List AnyT)) (i : Nat) : AnyT :=
  match buf with
  | none => junk
  | some l => if h : i < l.length then l[i] else junk

/-- Function `darray_init` (src/darray.c:57-75), the non-null-handle path: length 0,
capacity `DEFAULT_CAPACITY`, null buffer, null comparator, default
allocator family. Never allocates. -/
def darray_init : DArray :=
  { len := 0
    capacity := DEFAULT_CAPACITY
    buffer := none
    cmp_f := false
    allocator := defaultAllocator }

/-- Function `darray_set_cmp_f` (src/darray.c:106-113), non-null-handle path. -/
def darray_set_cmp_f (arr : DArray) (cmp : Bool) : Stat × DArray :=
  (OK, { arr with cmp_f := cmp })

/-- Helper `_mv_data` (src/darray.c:129-154): migrate the buffer to a new
allocator.  The C code makes two allocation calls with the new allocator
(`ok1`, `ok2` are their outcomes): it allocates a copy block, copies the
`capacity` slots into it, frees the old buffer with the *old* allocator,
allocates the final block, and copies back.  If the second allocation
fails, the old buffer has already been freed and `arr->buffer` is the
`NULL` returned by the failed call (the copy block is leaked and the
`mem_free_f(arr->buffer)` on the failure path frees that `NULL`). -/
def _mv_data (arr : DArray) (al : Allocator) (ok1 ok2 : Bool) : Stat × DArray :=
  if al.mem_alloc_f = false ∨ al.mem_free_f = false then
    (ERR_NULL_FUNCTION_POINTER, arr)
  else if ok1 = false then
    (ERR_ALLOC, arr)
  else
    -- buffer_cpy now holds the first `capacity` slots of the old buffer;
    -- the old buffer is freed; the second allocation is attempted.
    if ok2 = false then
      (ERR_ALLOC, { arr with buffer := none })
    else
      (OK, { arr with
              buffer := some (List.ofFn (fun i : Fin arr.capacity => bufRead arr.buffer i.1)) })

/-- Function `darray_set_allocator` (src/darray.c:156-172), non-null-handle path:
when a buffer exists, migrate it via `_mv_data` and propagate any failure
(with whatever state `_mv_data` left); then adopt the allocator record. -/
def darray_set_allocator (arr : DArray) (al : Allocator) (ok1 ok2 : Bool) : Stat × DArray :=
  match arr.buffer with
  | some _ =>
    let r := _mv_data arr al ok1 ok2
    if r.1 ≠ OK then r
    else (OK, { r.2 with allocator := al })
  | none => (OK, { arr with allocator := al })

/-- Function `darray_resize` (src/darray.c:187-206), non-null-handle path.
`reallocOk` is the outcome of the `mem_realloc_f` call.  On success the C
code has a block of `new_capacity` slots whose first
`min(old block size, new_capacity)` slots `realloc` preserved, and then
`memcpy`s the first `min(capacity, new_capacity)` slots from the old
pointer; both reads of old slot `i` are `bufRead arr.buffer i` in the
model, so the resulting block is slotwise `bufRead` of the old buffer
(slots past the old block are `junk`).  `len` is not adjusted. -/
def darray_resize (arr : DArray) (new_capacity : Nat) (reallocOk : Bool) : Stat × DArray :=
  if arr.allocator.mem_realloc_f = false then
    (ERR_NULL_FUNCTION_POINTER, arr)
  else if reallocOk = false then
    (ERR_ALLOC, arr)
  else
    (OK, { arr with
            buffer := some (List.ofFn (fun i : Fin new_capacity => bufRead arr.buffer i.1))
            capacity := new_capacity })

/-- Function `darray_insert` (src/darray.c:224-252), non-null-handle path: bound
check against `capacity` first; lazy allocation of a `capacity`-sized
block when the buffer is null (`allocOk` is that call's outcome; a fresh
`malloc` block is uninitialized, i.e. `junk` slots); write slot `index`;
then `len = index + 1` when `index ≥ len`. -/
def darray_insert (arr : DArray) (index : Nat) (data : AnyT) (allocOk : Bool) : Stat × DArray :=
  if arr.capacity ≤ index then
    (ERR_INDEX_LARGER_THAN_CAPACITY, arr)
  else
    match arr.buffer with
    | none =>
      if arr.allocator.mem_alloc_f = false then
        (ERR_NULL_FUNCTION_POINTER, arr)
      else if allocOk = false then
        (ERR_ALLOC, arr)
      else
        (OK, { arr with
                buffer := some ((List.replicate arr.capacity junk).set index data)
                len := if arr.len ≤ index then index + 1 else arr.len })
    | some l =>
      (OK, { arr with
              buffer := some (l.set index data)
              len := if arr.len ≤ index then index + 1 else arr.len })

/-- Function `darray_append` (src/darray.c:264-279), non-null-handle path: when
`len ≥ capacity`, first `darray_resize(arr, capacity + DEFAULT_EXPANSION_FACTOR)`
and return its status on failure; then `darray_insert(arr, len, data)`.
`reallocOk` / `allocOk` are the outcomes of the allocation calls the two
callees may make. -/
def darray_append (arr : DArray) (data : AnyT) (reallocOk allocOk : Bool) : Stat × DArray :=
  if arr.capacity ≤ arr.len then
    let r := darray_resize arr (arr.capacity + DEFAULT_EXPANSION_FACTOR) reallocOk
    if r.1 ≠ OK then r
    else darray_insert r.2 r.2.len data allocOk
  else darray_insert arr arr.len data allocOk

/-- Function `darray_at_dst` (src/darray.c:292-302).  `arr = none` models a null
handle; `dst` is the prior contents of the caller's destination slot,
and the second component of the result is the destination slot after the
call (written only on `OK`).  Note the read is *not* guarded by a check
that the buffer is allocated: only the handle and `index ≥ capacity` are
checked. -/
def darray_at_dst (arr : Option DArray) (index : Nat) (dst : AnyT) : Stat × AnyT :=
  match arr with
  | none => (ERR_NULL_POINTER, dst)
  | some a =>
    if a.capacity ≤ index then (ERR_INDEX_LARGER_THAN_CAPACITY, dst)
    else (OK, bufRead a.buffer index)

/-- Function `darray_at_ret` (src/darray.c:314-321): calls `darray_at_dst` on an
uninitialized local (`junk`), returns `NULL` unless the status is `OK`. -/
def darray_at_ret (arr : Option DArray) (index : Nat) : AnyT :=
  let r := darray_at_dst arr index junk
  if r.1 ≠ OK then none else r.2

/-- Function `darray_free` (src/darray.c:334-354), non-null-handle path: requires
`mem_free_f`; frees the buffer (the pointer itself is *not* nulled, so it
remains non-null and dangling; its slots become indeterminate, i.e.
`junk`); zeroes `len` and `capacity`; clears the comparator and all four
allocator function pointers. -/
def darray_free (arr : DArray) : Stat × DArray :=
  if arr.allocator.mem_free_f = false then
    (ERR_NULL_FUNCTION_POINTER, arr)
  else
    (OK, { len := 0
           capacity := 0
           buffer := arr.buffer.map (fun l => List.replicate l.length junk)
           cmp_f := false
           allocator := ⟨false, false, false, false⟩ })

/-- Run a sequence of `darray_append` calls (each with both allocation
oracles succeeding), collecting the statuses and the final state. -/
def appendTrace (arr : DArray) (vs : List AnyT) : List Stat × DArray :=
  match vs with
  | [] => ([], arr)
  | v :: vs' =>
    let r := darray_append arr v true true
    let t := appendTrace r.2 vs'
    (r.1 :: t.1, t.2)

/-- The reference behaviour stated by the spec for `append`: it is
`insert(length, value)`, except that when `length ≥ capacity` it first
grows the capacity by exactly 2 slots via `resize(capacity + 2)` and
propagates any resize failure instead of inserting.  (Written from the
spec's words, to be compared with `darray_append`.) -/
def appendViaInsert (arr : DArray) (data : AnyT) (reallocOk allocOk : Bool) : Stat × DArray :=
  if arr.capacity ≤ arr.len then
    match darray_resize arr (arr.capacity + 2) reallocOk with
    | (OK, a2) => darray_insert a2 a2.len data allocOk
    | (s, a2) => (s, a2)
  else darray_insert arr arr.len data allocOk

/-! Helper lemmas about `bufRead`. -/

theorem bufRead_ofFn (buf : Option (List AnyT)) (n i : Nat) (h : i < n) :
    bufRead (some (List.ofFn (fun k : Fin n => bufRead buf k.1))) i = bufRead buf i := by
  simp only [bufRead, List.length_ofFn, h, dif_pos, List.getElem_ofFn]

theorem bufRead_set_self (l : List AnyT) (j : Nat) (v : AnyT) (h : j < l.length) :
    bufRead (some (l.set j v)) j = v := by
  have h' : j < (l.set j v).length := by simpa [List.length_set] using h
  simp only [bufRead, h', dif_pos]
  rw [List.getElem_set]
  simp

theorem bufRead_set_ne (l : List AnyT) (i j : Nat) (v : AnyT) (hne : j ≠ i) :
    bufRead (some (l.set j v)) i = bufRead (some l) i := by
  simp only [bufRead, List.length_set]
  by_cases h : i < l.length
  · rw [dif_pos h, dif_pos h, List.getElem_set, if_neg hne]
  · rw [dif_neg h, dif_neg h]

/-! Helper lemmas about `darray_resize`. -/

theorem darray_resize_of_ok (arr : DArray) (c : Nat)
    (hre : arr.allocator.mem_realloc_f = true) :
    darray_resize arr c true
      = (OK, { arr with
                buffer := some (List.ofFn (fun i : Fin c => bufRead arr.buffer i.1))
                capacity := c }) := by
  unfold darray_resize
  rw [hre]
  simp

theorem darray_resize_of_fail (arr : DArray) (c : Nat) (o : Bool)
    (hs : (darray_resize arr c o).1 ≠ OK) :
    (darray_resize arr c o).2 = arr := by
  unfold darray_resize at hs ⊢
  by_cases h1 : arr.allocator.mem_realloc_f = false
  · rw [if_pos h1]
  · rw [if_neg h1] at hs ⊢
    by_cases h2 : o = false
    · rw [if_pos h2]
    · rw [if_neg h2] at hs
      exact absurd rfl hs

theorem darray_resize_len (arr : DArray) (c : Nat) (o : Bool) :
    (darray_resize arr c o).2.len = arr.len := by
  unfold darray_resize
  split
  · rfl
  · split <;> rfl

/-! The claims. -/

/-- C3: for every array and every `index ≥ capacity`, `darray_insert`
returns `ERR_INDEX_LARGER_THAN_CAPACITY` and leaves the whole state
(length, capacity, buffer contents) unchanged — the bound check precedes
any allocation or write. -/
theorem c3_insert_index_out_of_capacity (arr : DArray) (index : Nat) (v : AnyT) (allocOk : Bool)
    (h : arr.capacity ≤ index) :
    darray_insert arr index v allocOk = (ERR_INDEX_LARGER_THAN_CAPACITY, arr) := by
  unfold darray_insert
  rw [if_pos h]

/-- Witness for C3: on a fresh array (capacity 8), inserting at index 8
fails with `ERR_INDEX_LARGER_THAN_CAPACITY` and changes nothing. -/
theorem c3_witness :
    darray_insert darray_init 8 (some 1) true = (ERR_INDEX_LARGER_THAN_CAPACITY, darray_init) :=
  c3_insert_index_out_of_capacity darray_init 8 (some 1) true (by decide)

/-- C7: `darray_append` coincides, on every state and every pair of
allocation outcomes, with the spec-side composite `appendViaInsert`
(insert at the current length, after growing capacity by exactly 2 via
`darray_resize` when `length ≥ capacity`, propagating resize failures). -/
theorem c7_append_refines_insert (arr : DArray) (data : AnyT) (reallocOk allocOk : Bool) :
    darray_append arr data reallocOk allocOk = appendViaInsert arr data reallocOk allocOk := by
  unfold darray_append appendViaInsert DEFAULT_EXPANSION_FACTOR
  by_cases h : arr.capacity ≤ arr.len
  · rw [if_pos h, if_pos h]
    cases hr : darray_resize arr (arr.capacity + 2) reallocOk with
    | mk s a2 => cases s <;> simp
  · rw [if_neg h, if_neg h]

/-- C6, counterexample: the claim "capacity == 0 whenever the buffer is
absent" is already false in the state produced by `darray_init`, which
is reachable by the empty sequence of operations: the buffer is absent
while the capacity is 8. -/
theorem c6_counterexample : darray_init.buffer = none ∧ darray_init.capacity ≠ 0 := by
  decide

/-- C6, amended: `darray_init` leaves the buffer absent with capacity 8
(the default), not 0; and a present (non-null, dangling) buffer pointer
can coexist with capacity 0, because `darray_free` frees the buffer and
zeroes the capacity without nulling the pointer. -/
theorem c6_amended :
    darray_init.buffer = none ∧ darray_init.capacity = 8 ∧
    (darray_free (darray_insert darray_init 0 (some 7) true).2).2.buffer ≠ none ∧
    (darray_free (darray_insert darray_init 0 (some 7) true).2).2.capacity = 0 := by
  decide

/-- C8: `darray_free` on an array whose free function is present returns
`OK`, zeroes length and capacity, clears the comparator and all four
allocator function references; a second `darray_free` without re-init
then fails with `ERR_NULL_FUNCTION_POINTER` and changes nothing (no free
is performed: the function returns before touching the state). -/
theorem c8_free_resets_and_second_free_fails (arr : DArray)
    (h : arr.allocator.mem_free_f = true) :
    (darray_free arr).1 = OK ∧
    (darray_free arr).2.len = 0 ∧
    (darray_free arr).2.capacity = 0 ∧
    (darray_free arr).2.cmp_f = false ∧
    (darray_free arr).2.allocator = ⟨false, false, false, false⟩ ∧
    darray_free (darray_free arr).2 = (ERR_NULL_FUNCTION_POINTER, (darray_free arr).2) := by
  have h1 : darray_free arr
      = (OK, { len := 0
               capacity := 0
               buffer := arr.buffer.map (fun l => List.replicate l.length junk)
               cmp_f := false
               allocator := ⟨false, false, false, false⟩ }) := by
    unfold darray_free
    rw [h]
    simp
  rw [h1]
  refine ⟨rfl, rfl, rfl, rfl, rfl, ?_⟩
  unfold darray_free
  rfl

/-- Witness for C8: applied to a freshly initialized array. -/
theorem c8_witness :
    (darray_free darray_init).1 = OK ∧
    (darray_free darray_init).2.len = 0 ∧
    (darray_free darray_init).2.capacity = 0 ∧
    (darray_free darray_init).2.cmp_f = false ∧
    (darray_free darray_init).2.allocator = ⟨false, false, false, false⟩ ∧
    darray_free (darray_free darray_init).2
      = (ERR_NULL_FUNCTION_POINTER, (darray_free darray_init).2) :=
  c8_free_resets_and_second_free_fails darray_init (by decide)

/-- C10: `darray_at_dst` fails exactly on a null handle
(`ERR_NULL_POINTER`) or on `index ≥ capacity`
(`ERR_INDEX_LARGER_THAN_CAPACITY`); there is no check that the buffer is
allocated, so on a freshly initialized array (capacity 8, buffer never
allocated) every `index < 8` yields `OK` with the determinized
unallocated-read value `junk`, and `darray_at_ret` returns that read
value rather than signalling an error. -/
theorem c10_at_bound_checked_by_capacity_only (arr : DArray) (i : Nat) (dst : AnyT) :
    ((darray_at_dst (some arr) i dst).1 = OK ↔ i < arr.capacity) ∧
    (darray_at_dst none i dst).1 = ERR_NULL_POINTER ∧
    (i < 8 →
      darray_at_dst (some darray_init) i dst = (OK, junk) ∧
      darray_at_ret (some darray_init) i = junk) := by
  refine ⟨?_, rfl, ?_⟩
  · simp only [darray_at_dst]
    by_cases h : arr.capacity ≤ i
    · rw [if_pos h]
      simp
      omega
    · rw [if_neg h]
      simp
      omega
  · intro hi
    have hle : ¬ darray_init.capacity ≤ i := by
      simp only [darray_init, DEFAULT_CAPACITY]
      omega
    constructor
    · simp only [darray_at_dst]
      rw [if_neg hle]
      rfl
    · simp only [darray_at_ret, darray_at_dst]
      rw [if_neg hle]
      simp
      rfl

/-- Witness for C10: index 3 on a fresh array reads `OK`/`junk`. -/
theorem c10_witness :
    darray_at_dst (some darray_init) 3 none = (OK, junk) ∧
    darray_at_ret (some darray_init) 3 = junk :=
  (c10_at_bound_checked_by_capacity_only darray_init 3 none).2.2 (by decide)

/-- C2, demonstration of the code bug: on an array holding one element,
`darray_set_allocator` with a fully-present new allocator whose first
allocation succeeds and second fails returns `ERR_ALLOC` with the old
buffer already freed and the buffer pointer nulled — the original
buffer, with its stored `some 42`, is *not* left intact on this failure
path (src/darray.c:140-146: the old buffer is freed before the second
allocation is checked, and the copy block is leaked). -/
theorem c2_migration_failure_loses_buffer :
    (darray_insert darray_init 0 (some 42) true).2.buffer ≠ none ∧
    bufRead (darray_insert darray_init 0 (some 42) true).2.buffer 0 = some 42 ∧
    darray_set_allocator (darray_insert darray_init 0 (some 42) true).2
        defaultAllocator true false
      = (ERR_ALLOC, { (darray_insert darray_init 0 (some 42) true).2 with buffer := none }) := by
  decide

/-- C9, counterexample: on a freshly initialized array (buffer absent),
`darray_set_allocator` with an allocator whose allocate and free
functions are both absent returns `OK` and installs the defective
allocator record — it does not fail with `ERR_NULL_FUNCTION_POINTER` and
does not leave the allocator unchanged. -/
theorem c9_counterexample :
    (darray_set_allocator darray_init ⟨false, true, true, false⟩ true true).1 = OK ∧
    (darray_set_allocator darray_init ⟨false, true, true, false⟩ true true).2.allocator
      = ⟨false, true, true, false⟩ := by
  decide

/-- C9, amended: the `ERR_NULL_FUNCTION_POINTER` rejection (with the
array left unchanged) happens exactly when a buffer is present — the
presence check lives in `_mv_data`, which runs only then; with the
buffer absent the allocator record is replaced unconditionally and `OK`
returned. -/
theorem c9_set_allocator_null_function (arr : DArray) (al : Allocator) (ok1 ok2 : Bool)
    (hfn : al.mem_alloc_f = false ∨ al.mem_free_f = false) :
    (arr.buffer ≠ none → darray_set_allocator arr al ok1 ok2 = (ERR_NULL_FUNCTION_POINTER, arr)) ∧
    (arr.buffer = none → darray_set_allocator arr al ok1 ok2 = (OK, { arr with allocator := al })) := by
  have hmv : _mv_data arr al ok1 ok2 = (ERR_NULL_FUNCTION_POINTER, arr) := by
    unfold _mv_data
    rw [if_pos hfn]
  constructor
  · intro hbuf
    unfold darray_set_allocator
    cases hb : arr.buffer with
    | none => exact absurd hb hbuf
    | some l => simp [hmv]
  · intro hbuf
    unfold darray_set_allocator
    rw [hbuf]

theorem darray_resize_cap_of_ok (arr : DArray) (c : Nat) (o : Bool)
    (hs : (darray_resize arr c o).1 = OK) :
    (darray_resize arr c o).2.capacity = c := by
  unfold darray_resize at hs ⊢
  by_cases h1 : arr.allocator.mem_realloc_f = false
  · rw [if_pos h1] at hs
    exact Stat.noConfusion hs
  · rw [if_neg h1] at hs ⊢
    by_cases h2 : o = false
    · rw [if_pos h2] at hs
      exact Stat.noConfusion hs
    · rw [if_neg h2]

/-- C4: `darray_resize` with the reallocate function present and the
reallocation succeeding returns `OK`, sets capacity to exactly `c`,
leaves the length unchanged, and preserves the first
`min(oldCapacity, c)` slots: a subsequent `darray_at_dst` on any such
index succeeds and returns exactly what it returned before the resize. -/
theorem c4_resize_exact_and_preserving (arr : DArray) (c : Nat)
    (hre : arr.allocator.mem_realloc_f = true) :
    (darray_resize arr c true).1 = OK ∧
    (darray_resize arr c true).2.capacity = c ∧
    (darray_resize arr c true).2.len = arr.len ∧
    ∀ i, i < min arr.capacity c → ∀ dst,
      darray_at_dst (some (darray_resize arr c true).2) i dst
        = darray_at_dst (some arr) i dst ∧
      (darray_at_dst (some (darray_resize arr c true).2) i dst).1 = OK := by
  rw [darray_resize_of_ok arr c hre]
  refine ⟨rfl, rfl, rfl, ?_⟩
  intro i hi dst
  have hic : i < c := lt_of_lt_of_le hi (min_le_right _ _)
  have hicap : i < arr.capacity := lt_of_lt_of_le hi (min_le_left _ _)
  have hb : bufRead (some (List.ofFn (fun k : Fin c => bufRead arr.buffer k.1))) i
      = bufRead arr.buffer i := bufRead_ofFn arr.buffer c i hic
  simp only [darray_at_dst]
  rw [if_neg (show ¬ c ≤ i by omega), if_neg (show ¬ arr.capacity ≤ i by omega), hb]
  exact ⟨rfl, rfl⟩

/-- Witness for C4: shrinking a one-element array from capacity 8 to 4
keeps slot 0 readable and unchanged. -/
theorem c4_witness :
    darray_at_dst
        (some (darray_resize (darray_insert darray_init 0 (some 42) true).2 4 true).2) 0 none
      = darray_at_dst (some (darray_insert darray_init 0 (some 42) true).2) 0 none ∧
    (darray_at_dst
        (some (darray_resize (darray_insert darray_init 0 (some 42) true).2 4 true).2) 0 none).1
      = OK :=
  (c4_resize_exact_and_preserving (darray_insert darray_init 0 (some 42) true).2 4
    (by decide)).2.2.2 0 (by decide) none

theorem darray_insert_len_le (arr : DArray) (h : arr.len ≤ arr.capacity)
    (i : Nat) (v : AnyT) (o : Bool) :
    (darray_insert arr i v o).2.len ≤ (darray_insert arr i v o).2.capacity := by
  unfold darray_insert
  split
  · exact h
  · split
    · split
      · exact h
      · split
        · exact h
        · simp only
          split <;> omega
    · simp only
      split <;> omega

theorem darray_append_len_le (arr : DArray) (h : arr.len ≤ arr.capacity)
    (v : AnyT) (o1 o2 : Bool) :
    (darray_append arr v o1 o2).2.len ≤ (darray_append arr v o1 o2).2.capacity := by
  unfold darray_append
  by_cases hc : arr.capacity ≤ arr.len
  · rw [if_pos hc]
    simp only
    by_cases hs : (darray_resize arr (arr.capacity + DEFAULT_EXPANSION_FACTOR) o1).1 ≠ OK
    · rw [if_pos hs, darray_resize_of_fail arr _ o1 hs]
      exact h
    · rw [if_neg hs]
      push_neg at hs
      have h2 : (darray_resize arr (arr.capacity + DEFAULT_EXPANSION_FACTOR) o1).2.len
          ≤ (darray_resize arr (arr.capacity + DEFAULT_EXPANSION_FACTOR) o1).2.capacity := by
        rw [darray_resize_len, darray_resize_cap_of_ok arr _ o1 hs]
        omega
      exact darray_insert_len_le _ h2 _ v o2
  · rw [if_neg hc]
    exact darray_insert_len_le arr h arr.len v o2

theorem darray_set_allocator_len_cap (arr : DArray) (al : Allocator) (o1 o2 : Bool) :
    (darray_set_allocator arr al o1 o2).2.len = arr.len ∧
    (darray_set_allocator arr al o1 o2).2.capacity = arr.capacity := by
  unfold darray_set_allocator _mv_data
  cases hb : arr.buffer with
  | none =>
    simp only [hb]
    trivial
  | some l =>
    simp only [hb]
    repeat' split
    all_goals trivial

/-- C5, counterexample: the invariant `length ≤ capacity` does not hold
in every reachable state — starting from `darray_init`, inserting at
indices 0 and 5 (length becomes 6) and then resizing to capacity 2 (all
public operations, all succeeding) reaches a state with length 6 and
capacity 2. -/
theorem c5_counterexample :
    (darray_resize
        (darray_insert (darray_insert darray_init 0 (some 1) true).2 5 (some 2) true).2
        2 true).2.len = 6 ∧
    (darray_resize
        (darray_insert (darray_insert darray_init 0 (some 1) true).2 5 (some 2) true).2
        2 true).2.capacity = 2 := by
  decide

/-- C5, amended: every public operation except `darray_resize` preserves
`length ≤ capacity` (`darray_set_cmp_f`, `darray_set_allocator`,
`darray_insert`, `darray_append`, `darray_free`, under every allocation
outcome); `darray_resize` preserves it whenever the requested capacity
is at least the current length (shrinking below the length breaks it,
as the counterexample shows). -/
theorem c5_len_le_capacity_preservation (arr : DArray) (h : arr.len ≤ arr.capacity) :
    (∀ c, (darray_set_cmp_f arr c).2.len ≤ (darray_set_cmp_f arr c).2.capacity) ∧
    (∀ al o1 o2,
      (darray_set_allocator arr al o1 o2).2.len
        ≤ (darray_set_allocator arr al o1 o2).2.capacity) ∧
    (∀ i v o, (darray_insert arr i v o).2.len ≤ (darray_insert arr i v o).2.capacity) ∧
    (∀ v o1 o2, (darray_append arr v o1 o2).2.len ≤ (darray_append arr v o1 o2).2.capacity) ∧
    ((darray_free arr).2.len ≤ (darray_free arr).2.capacity) ∧
    (∀ c o, arr.len ≤ c →
      (darray_resize arr c o).2.len ≤ (darray_resize arr c o).2.capacity) := by
  refine ⟨fun c => h, fun al o1 o2 => ?_,
    fun i v o => darray_insert_len_le arr h i v o,
    fun v o1 o2 => darray_append_len_le arr h v o1 o2, ?_, fun c o hlc => ?_⟩
  · rw [(darray_set_allocator_len_cap arr al o1 o2).1,
      (darray_set_allocator_len_cap arr al o1 o2).2]
    exact h
  · unfold darray_free
    split
    · exact h
    · exact Nat.le_refl 0
  · by_cases hs : (darray_resize arr c o).1 = OK
    · rw [darray_resize_len, darray_resize_cap_of_ok arr c o hs]
      exact hlc
    · rw [darray_resize_of_fail arr c o hs]
      exact h

/-- Witness for C5 (amended): the append conjunct applied to a fresh
array. -/
theorem c5_witness :
    (darray_append darray_init (some 3) true true).2.len
      ≤ (darray_append darray_init (some 3) true true).2.capacity :=
  (c5_len_le_capacity_preservation darray_init (by decide)).2.2.2.1 (some 3) true true

/-- Witness for C9 (amended): a one-element array rejects an allocator
with an absent free function and is left unchanged. -/
theorem c9_witness :
    darray_set_allocator (darray_insert darray_init 0 (some 5) true).2
        ⟨true, true, true, false⟩ true true
      = (ERR_NULL_FUNCTION_POINTER, (darray_insert darray_init 0 (some 5) true).2) :=
  (c9_set_allocator_null_function (darray_insert darray_init 0 (some 5) true).2
    ⟨true, true, true, false⟩ true true (Or.inr rfl)).1 (by decide)

/-! Machinery for C1: a state invariant for append sequences. -/

/-- Invariant tying a state reached from `darray_init` by successful
appends to the list `vs` of values appended so far. -/
def Good (arr : DArray) (vs : List AnyT) : Prop :=
  arr.len = vs.length ∧
  vs.length ≤ arr.capacity ∧
  0 < arr.capacity ∧
  arr.allocator = defaultAllocator ∧
  match arr.buffer with
  | none => vs = []
  | some l => l.length = arr.capacity ∧ ∀ i (h : i < vs.length), bufRead (some l) i = vs[i]

theorem good_init : Good darray_init [] :=
  ⟨rfl, by decide, by decide, rfl, rfl⟩

theorem darray_append_eq_of_full (arr : DArray) (v : AnyT)
    (hc : arr.capacity ≤ arr.len) (hre : arr.allocator.mem_realloc_f = true) :
    darray_append arr v true true
      = darray_insert (darray_resize arr (arr.capacity + DEFAULT_EXPANSION_FACTOR) true).2
          (darray_resize arr (arr.capacity + DEFAULT_EXPANSION_FACTOR) true).2.len v true := by
  unfold darray_append
  rw [if_pos hc]
  have h1 : (darray_resize arr (arr.capacity + DEFAULT_EXPANSION_FACTOR) true).1 = OK := by
    rw [darray_resize_of_ok arr _ hre]
  simp only [h1, ne_eq, not_true_eq_false, if_false]

theorem darray_append_eq_of_space (arr : DArray) (v : AnyT) (o1 o2 : Bool)
    (hc : ¬ arr.capacity ≤ arr.len) :
    darray_append arr v o1 o2 = darray_insert arr arr.len v o2 := by
  unfold darray_append
  rw [if_neg hc]

theorem darray_insert_some (arr : DArray) (l : List AnyT) (hb : arr.buffer = some l)
    (index : Nat) (data : AnyT) (o : Bool) (hi : ¬ arr.capacity ≤ index) :
    darray_insert arr index data o
      = (OK, { arr with buffer := some (l.set index data)
                        len := if arr.len ≤ index then index + 1 else arr.len }) := by
  unfold darray_insert
  rw [if_neg hi, hb]

theorem darray_insert_none (arr : DArray) (hb : arr.buffer = none)
    (index : Nat) (data : AnyT) (hi : ¬ arr.capacity ≤ index)
    (haf : arr.allocator.mem_alloc_f = true) :
    darray_insert arr index data true
      = (OK, { arr with buffer := some ((List.replicate arr.capacity junk).set index data)
                        len := if arr.len ≤ index then index + 1 else arr.len }) := by
  unfold darray_insert
  rw [if_neg hi, hb, haf]
  simp

theorem append_step (arr : DArray) (vs : List AnyT) (v : AnyT) (hg : Good arr vs) :
    (darray_append arr v true true).1 = OK ∧
    Good (darray_append arr v true true).2 (vs ++ [v]) := by
  obtain ⟨hlen, hle, hpos, hal, hbuf⟩ := hg
  have hre : arr.allocator.mem_realloc_f = true := by rw [hal]; rfl
  have haf : arr.allocator.mem_alloc_f = true := by rw [hal]; rfl
  by_cases hc : arr.capacity ≤ arr.len
  · -- the array is full: len = capacity, and the buffer must be present
    cases hb : arr.buffer with
    | none =>
      exfalso
      simp only [hb] at hbuf
      subst hbuf
      simp only [List.length_nil] at hlen
      omega
    | some l =>
      simp only [hb] at hbuf
      obtain ⟨hllen, hread⟩ := hbuf
      rw [darray_append_eq_of_full arr v hc hre,
        darray_resize_of_ok arr (arr.capacity + DEFAULT_EXPANSION_FACTOR) hre]
      dsimp only
      rw [darray_insert_some _ (List.ofFn
            (fun i : Fin (arr.capacity + DEFAULT_EXPANSION_FACTOR) => bufRead arr.buffer i.1))
          rfl arr.len v true
          (by dsimp only [DEFAULT_EXPANSION_FACTOR]; omega)]
      dsimp only
      rw [if_pos (Nat.le_refl arr.len)]
      refine ⟨rfl, ?_, ?_, ?_, hal, ?_⟩
      · simp only [List.length_append, List.length_cons, List.length_nil]
        omega
      · simp only [List.length_append, List.length_cons, List.length_nil,
          DEFAULT_EXPANSION_FACTOR]
        omega
      · dsimp only [DEFAULT_EXPANSION_FACTOR]
        omega
      · refine ⟨by simp only [List.length_set, List.length_ofFn, DEFAULT_EXPANSION_FACTOR], ?_⟩
        intro i hi
        have hivs : i < vs.length + 1 := by simpa using hi
        by_cases hiv : i < vs.length
        · have hine : arr.len ≠ i := by omega
          rw [bufRead_set_ne _ _ _ _ hine,
            bufRead_ofFn arr.buffer _ i (by dsimp only [DEFAULT_EXPANSION_FACTOR]; omega), hb]
          rw [hread i hiv]
          exact (List.getElem_append_left hiv).symm
        · have hieq : i = vs.length := by omega
          subst hieq
          have hlt : arr.len < (List.ofFn
              (fun k : Fin (arr.capacity + DEFAULT_EXPANSION_FACTOR) =>
                bufRead arr.buffer k.1)).length := by
            simp only [List.length_ofFn, DEFAULT_EXPANSION_FACTOR]
            omega
          rw [hlen, bufRead_set_self _ _ _ (hlen ▸ hlt)]
          rw [List.getElem_concat_length vs v vs.length rfl]
  · -- there is room: a plain insert at the current length
    cases hb : arr.buffer with
    | none =>
      simp only [hb] at hbuf
      subst hbuf
      simp only [List.length_nil] at hlen
      rw [darray_append_eq_of_space arr v true true hc,
        darray_insert_none arr hb arr.len v hc haf]
      rw [if_pos (Nat.le_refl arr.len)]
      refine ⟨rfl, ?_, ?_, ?_, hal, ?_⟩
      · simp [hlen]
      · simpa using hpos
      · exact hpos
      · refine ⟨by simp [List.length_set, List.length_replicate], ?_⟩
        intro i hi
        simp only [List.nil_append, List.length_cons, List.length_nil] at hi
        have hi0 : i = 0 := by omega
        subst hi0
        have h0 : (0 : Nat) < (List.replicate arr.capacity junk).length := by
          simp only [List.length_replicate]
          omega
        rw [hlen, bufRead_set_self _ _ _ h0]
        rfl
    | some l =>
      simp only [hb] at hbuf
      obtain ⟨hllen, hread⟩ := hbuf
      rw [darray_append_eq_of_space arr v true true hc,
        darray_insert_some arr l hb arr.len v true hc]
      rw [if_pos (Nat.le_refl arr.len)]
      refine ⟨rfl, ?_, ?_, ?_, hal, ?_⟩
      · simp only [List.length_append, List.length_cons, List.length_nil]
        omega
      · simp only [List.length_append, List.length_cons, List.length_nil]
        omega
      · exact hpos
      · refine ⟨by simp [List.length_set, hllen], ?_⟩
        intro i hi
        have hivs : i < vs.length + 1 := by simpa using hi
        by_cases hiv : i < vs.length
        · have hine : arr.len ≠ i := by omega
          rw [bufRead_set_ne _ _ _ _ hine, hread i hiv]
          exact (List.getElem_append_left hiv).symm
        · have hieq : i = vs.length := by omega
          subst hieq
          have hlt : vs.length < l.length := by omega
          rw [hlen, bufRead_set_self _ _ _ hlt]
          rw [List.getElem_concat_length vs v vs.length rfl]

theorem appendTrace_good (vs : List AnyT) :
    ∀ (arr : DArray) (acc : List AnyT), Good arr acc →
      (∀ s ∈ (appendTrace arr vs).1, s = OK) ∧
      Good (appendTrace arr vs).2 (acc ++ vs) := by
  induction vs with
  | nil =>
    intro arr acc hg
    constructor
    · intro s hs
      simp only [appendTrace] at hs
      cases hs
    · simpa [appendTrace] using hg
  | cons v vs ih =>
    intro arr acc hg
    obtain ⟨hok, hg'⟩ := append_step arr acc v hg
    obtain ⟨hoks, hgood⟩ := ih (darray_append arr v true true).2 (acc ++ [v]) hg'
    constructor
    · intro s hs
      unfold appendTrace at hs
      simp only [List.mem_cons] at hs
      cases hs with
      | inl h => rw [h]; exact hok
      | inr h => exact hoks s h
    · unfold appendTrace
      simpa using hgood

/-- C1: after any sequence of `darray_append` calls on a freshly
initialized array (every allocation succeeding), every append returned
`OK`, the length equals the number of appends, and reading any index
`i < n` through `darray_at_dst` (hence `darray_at_ret`) yields the
`i`-th appended value. -/
theorem c1_append_sequence (vs : List AnyT) :
    (∀ s ∈ (appendTrace darray_init vs).1, s = OK) ∧
    (appendTrace darray_init vs).2.len = vs.length ∧
    ∀ i (h : i < vs.length) (dst : AnyT),
      darray_at_dst (some (appendTrace darray_init vs).2) i dst = (OK, vs[i]) ∧
      darray_at_ret (some (appendTrace darray_init vs).2) i = vs[i] := by
  obtain ⟨hoks, hgood⟩ := appendTrace_good vs darray_init [] good_init
  simp only [List.nil_append] at hgood
  obtain ⟨hlen, hle, hpos, hal, hbuf⟩ := hgood
  refine ⟨hoks, hlen, ?_⟩
  intro i hi dst
  cases hb : (appendTrace darray_init vs).2.buffer with
  | none =>
    exfalso
    simp only [hb] at hbuf
    subst hbuf
    exact absurd hi (by simp)
  | some l =>
    simp only [hb] at hbuf
    obtain ⟨hllen, hread⟩ := hbuf
    have hicap : ¬ (appendTrace darray_init vs).2.capacity ≤ i := by omega
    have hval : bufRead (appendTrace darray_init vs).2.buffer i = vs[i] := by
      rw [hb]
      exact hread i hi
    constructor
    · simp only [darray_at_dst]
      rw [if_neg hicap, hval]
    · simp only [darray_at_ret, darray_at_dst]
      rw [if_neg hicap]
      simp only [ne_eq, not_true_eq_false, if_false]
      exact hval

/-- Witness for C1: three appends (10, 20, 30) from a fresh array leave
length 3 and reading index 1 yields 20. -/
theorem c1_witness :
    darray_at_dst (some (appendTrace darray_init [some 10, some 20, some 30]).2) 1 none
      = (OK, some 20) ∧
    darray_at_ret (some (appendTrace darray_init [some 10, some 20, some 30]).2) 1
      = some 20 :=
  (c1_append_sequence [some 10, some 20, some 30]).2.2 1 (by decide) none

end CDynArray
